import Mathlib

/-!
Shallow embedding of `EchoInStone/processing/speaker_aligner.py`
(`SpeakerAligner` and its helpers), together with theorems settling the
specification claims about the alignment and merge engine.

Modelling conventions:
* Python floats become `ℚ` (exact arithmetic; the claims are about order
  and boundary comparisons, not rounding).
* A transcription chunk dictionary `{'timestamp': [s, e], 'text': t}`
  becomes `Chunk`: the `timestamp` key may be absent (`none`), and each
  entry of the timestamp list may be `null` (`Option ℚ`).
* A pyannote diarization annotation is modelled as `Option (List Turn)`:
  `none` for Python `None`, otherwise the list of `(turn, _, speaker)`
  triples yielded by `itertracks(yield_label=True)` in iteration order.
* Python code paths that raise (`len(None)`, arithmetic on `None`) are
  modelled with `Except String`; a returned `.error` marks a raised
  exception.
* `defaultdict(float)` with Python's insertion-ordered iteration becomes
  an association list updated in place (`addDuration`), and Python's
  `max(..., key=...)` (which keeps the first maximal element) becomes
  `maxBySnd`.
-/

/-- Python's `str.strip()`: remove leading and trailing whitespace.
Implemented on the character list so that it evaluates in the kernel
(`String.trim` does not reduce definitionally). -/
def pyStrip (s : String) : String :=
  ⟨((s.data.dropWhile Char.isWhitespace).reverse.dropWhile Char.isWhitespace).reverse⟩

/-- One diarization turn: the `(turn, _, speaker)` triple yielded by
`diarization.itertracks(yield_label=True)`, with `turn.start`, `turn.end`. -/
structure Turn where
  start : ℚ
  «end» : ℚ
  speaker : String
deriving DecidableEq, Repr

/-- One transcription chunk dictionary: `timestamp` is `none` when the key
is absent, otherwise the list of timestamp values, each possibly `null`;
`text` is the chunk text (`chunk.get('text', '')`). -/
structure Chunk where
  timestamp : Option (List (Option ℚ))
  text : String
deriving DecidableEq, Repr

/-- An attributed/merged segment: the Python 4-tuple
`(speaker, start, end, text)`. -/
abbrev Seg : Type := String × ℚ × ℚ × String

/-- `SpeakerAligner.__init__` simply stores its two parameters; no
validation is performed. -/
structure SpeakerAligner where
  overlap_threshold : ℚ
  min_segment_duration : ℚ
deriving DecidableEq, Repr

/-- Insertion-ordered accumulation into `speaker_durations`
(`defaultdict(float)`): `speaker_durations[speaker] += d`. -/
def addDuration : List (String × ℚ) → String → ℚ → List (String × ℚ)
  | [], sp, d => [(sp, d)]
  | (s, v) :: rest, sp, d =>
      if s = sp then (s, v + d) :: rest else (s, v) :: addDuration rest sp d

/-- The accumulation loop of `SpeakerAligner._find_dominant_speaker`
(lines 117-125): for each turn, add the positive intersection duration with
`[start_time, end_time]` to that turn's speaker. -/
def speakerDurations (start_time end_time : ℚ) (turns : List Turn) :
    List (String × ℚ) :=
  turns.foldl
    (fun ds t =>
      let intersection_start := max start_time t.start
      let intersection_end := min end_time t.«end»
      if intersection_start < intersection_end then
        addDuration ds t.speaker (intersection_end - intersection_start)
      else ds)
    []

/-- Python's `max(items, key=lambda x: x[1])` on a non-empty association
list: iterates in order and keeps the first element with maximal value
(a later element replaces the current best only when strictly greater). -/
def maxBySnd : List (String × ℚ) → Option (String × ℚ)
  | [] => none
  | p :: rest => some (rest.foldl (fun best q => if best.2 < q.2 then q else best) p)

/-- `SpeakerAligner._find_dominant_speaker` (lines 103-137): accumulate
overlap per speaker, return `None` when no speaker has positive overlap,
otherwise return the dominant speaker iff its overlap ratio meets
`overlap_threshold` (`>=` comparison). -/
def SpeakerAligner.find_dominant_speaker (a : SpeakerAligner)
    (start_time end_time : ℚ) (turns : List Turn) : Option String :=
  let segment_duration := end_time - start_time
  match maxBySnd (speakerDurations start_time end_time turns) with
  | none => none
  | some dominant_speaker =>
      if a.overlap_threshold ≤ dominant_speaker.2 / segment_duration then
        some dominant_speaker.1
      else none

/-- `SpeakerAligner._get_last_segment_time` (lines 172-187): the running
maximum of segment end times, starting from `0.0`. -/
def get_last_segment_time (turns : List Turn) : ℚ :=
  turns.foldl (fun last_time t => if last_time < t.«end» then t.«end» else last_time) 0

/-- Resolution of a chunk's end timestamp (line 87):
`chunk['timestamp'][1] if chunk['timestamp'][1] is not None else last_diarization_end`. -/
def resolveEnd (e : Option ℚ) (last_diarization_end : ℚ) : ℚ :=
  match e with
  | some v => v
  | none => last_diarization_end

/-- The per-chunk loop of `SpeakerAligner._assign_speakers` (lines 83-99).
A chunk whose `timestamp` key is absent raises
`TypeError: object of type 'NoneType' has no len()` at
`len(chunk.get('timestamp'))`; a timestamp list with fewer than two values
is skipped; a `null` start raises a `TypeError` when
`_find_dominant_speaker` computes `end_time - start_time`; an empty trimmed
text is skipped before that call; an attributed chunk is appended only when
the returned speaker label is truthy (non-`None` and non-empty). -/
def assignLoop (a : SpeakerAligner) (last_diarization_end : ℚ)
    (turns : List Turn) : List Chunk → Except String (List Seg)
  | [] => .ok []
  | chunk :: rest =>
    match chunk.timestamp with
    | none => .error "TypeError: object of type NoneType has no len()"
    | some ts =>
      match ts with
      | s? :: e? :: _ =>
        let chunk_end := resolveEnd e? last_diarization_end
        let segment_text := pyStrip chunk.text
        if segment_text = "" then assignLoop a last_diarization_end turns rest
        else
          match s? with
          | none => .error "TypeError: unsupported operand type for NoneType"
          | some chunk_start =>
            match a.find_dominant_speaker chunk_start chunk_end turns with
            | some speaker =>
                if speaker = "" then assignLoop a last_diarization_end turns rest
                else
                  match assignLoop a last_diarization_end turns rest with
                  | .error e => .error e
                  | .ok l => .ok ((speaker, chunk_start, chunk_end, segment_text) :: l)
            | none => assignLoop a last_diarization_end turns rest
      | _ => assignLoop a last_diarization_end turns rest

/-- `SpeakerAligner._assign_speakers` (lines 66-101): compute the last
diarization end, then run the per-chunk loop. -/
def SpeakerAligner.assign_speakers (a : SpeakerAligner)
    (timestamps : List Chunk) (turns : List Turn) : Except String (List Seg) :=
  assignLoop a (get_last_segment_time turns) turns timestamps

/-- The accumulator loop of `SpeakerAligner._merge_consecutive_segments`
(lines 154-168): absorb the next segment into the current group when it has
the same speaker and `abs(segment[1] - current_group[2]) < 0.5`, else flush
the group. -/
def mergeLoop (current_group : Seg) : List Seg → List Seg
  | [] => [current_group]
  | segment :: rest =>
      if segment.1 = current_group.1 ∧
          |segment.2.1 - current_group.2.2.1| < 1/2 then
        mergeLoop
          (current_group.1, current_group.2.1, segment.2.2.1,
            current_group.2.2.2 ++ " " ++ segment.2.2.2) rest
      else current_group :: mergeLoop segment rest

/-- `SpeakerAligner._merge_consecutive_segments` (lines 139-170). -/
def merge_consecutive_segments : List Seg → List Seg
  | [] => []
  | s :: rest => mergeLoop s rest

/-- `SpeakerAligner._build_diarization_map` (lines 47-64): a map from
`(start, end)` pairs to the speakers of the turns with those bounds. Its
result is passed to `_assign_speakers` but never read there (dead data). -/
def build_diarization_map (turns : List Turn) : List ((ℚ × ℚ) × List String) :=
  turns.foldl
    (fun m t =>
      match m.lookup (t.start, t.«end») with
      | some sps => m.map (fun p => if p.1 = (t.start, t.«end») then (p.1, sps ++ [t.speaker]) else p)
      | none => m ++ [((t.start, t.«end»), [t.speaker])])
    []

/-- `SpeakerAligner.align` (lines 19-45): empty `timestamps` or `None`
diarization short-circuit to `[]`; otherwise assign speakers and merge
consecutive segments. The diarization map is built but unused. -/
def SpeakerAligner.align (a : SpeakerAligner) (_transcription : String)
    (timestamps : List Chunk) (diarization : Option (List Turn)) :
    Except String (List Seg) :=
  match diarization with
  | none => .ok []
  | some turns =>
    if timestamps.isEmpty then .ok []
    else
      let _diarization_map := build_diarization_map turns
      match a.assign_speakers timestamps turns with
      | .error e => .error e
      | .ok speaker_transcriptions => .ok (merge_consecutive_segments speaker_transcriptions)

/-- A segment with positive duration: `start < end`. -/
def posSeg (s : Seg) : Prop := s.2.1 < s.2.2.1

/-- One segment ends no later than the next starts. -/
def gapLE (x y : Seg) : Prop := x.2.2.1 ≤ y.2.1

/-- Output ordering property of claim C4: every earlier segment starts
strictly before and ends no later than every later segment starts. -/
def pairwiseOrdered (l : List Seg) : Prop :=
  l.Pairwise (fun x y => x.2.1 < y.2.1 ∧ x.2.2.1 ≤ y.2.1)

instance : DecidablePred posSeg := fun s => inferInstanceAs (Decidable (s.2.1 < s.2.2.1))

instance : ∀ x y, Decidable (gapLE x y) := fun x y =>
  inferInstanceAs (Decidable (x.2.2.1 ≤ y.2.1))

instance : DecidablePred pairwiseOrdered := fun l =>
  inferInstanceAs (Decidable (l.Pairwise _))

/-! ## Claim theorems -/

/-- C8: the two-chunk single-speaker scenario: chunks
`[{ts:[0,5], "hello"}, {ts:[5,9], "world"}]` with the single turn
`(0,9,"A")` yield exactly `[("A", 0, 9, "hello world")]` — both chunks are
attributed to A with full overlap, and since the gap between end 5 and
start 5 is 0 (within tolerance) they merge with texts joined by one
space. -/
theorem C8_scenario :
    (SpeakerAligner.mk (1/2) 1).align "hello world"
      [⟨some [some 0, some 5], "hello"⟩, ⟨some [some 5, some 9], "world"⟩]
      (some [⟨0, 9, "A"⟩]) = .ok [("A", 0, 9, "hello world")] := by
  simp +decide [SpeakerAligner.align, SpeakerAligner.assign_speakers, assignLoop,
    SpeakerAligner.find_dominant_speaker, speakerDurations, addDuration, maxBySnd,
    get_last_segment_time, resolveEnd, pyStrip]
  norm_num
  simp +decide [merge_consecutive_segments, mergeLoop]

/-- C1 counterexample: two consecutive same-speaker segments whose gap is
exactly the tolerance 0.5 (`abs(3/2 - 1) = 1/2`) are NOT merged into one
segment — the code compares the gap with `< 0.5`, not `<= 0.5`, so the
claim "gap exactly equal to the tolerance ⇒ merged" fails here. -/
theorem C1_counterexample :
    merge_consecutive_segments [("A", 0, 1, "x"), ("A", 3/2, 2, "y")] =
      [("A", 0, 1, "x"), ("A", 3/2, 2, "y")] ∧
    [("A", 0, 1, "x"), ("A", (3:ℚ)/2, 2, "y")] ≠ [("A", 0, 2, "x y")] := by
  constructor
  · simp only [merge_consecutive_segments, mergeLoop]
    rw [if_neg (fun hc => absurd hc.2 (by norm_num [le_abs]))]
  · simp

/-- C1 amended: for two consecutive attributed segments with the same
speaker label, they are merged exactly when the gap
`abs(next.start - accumulator.end)` is strictly less than the tolerance
0.5; a gap equal to or greater than 0.5 is not merged. -/
theorem C1_merge_gap_boundary (sp : String) (s1 e1 s2 e2 : ℚ) (t1 t2 : String) :
    (|s2 - e1| < 1/2 →
      merge_consecutive_segments [(sp, s1, e1, t1), (sp, s2, e2, t2)] =
        [(sp, s1, e2, t1 ++ " " ++ t2)]) ∧
    (1/2 ≤ |s2 - e1| →
      merge_consecutive_segments [(sp, s1, e1, t1), (sp, s2, e2, t2)] =
        [(sp, s1, e1, t1), (sp, s2, e2, t2)]) := by
  refine ⟨fun h => ?_, fun h => ?_⟩
  · simp only [merge_consecutive_segments, mergeLoop]
    rw [if_pos ⟨trivial, h⟩]
  · simp only [merge_consecutive_segments, mergeLoop]
    rw [if_neg (fun hc => absurd hc.2 (not_lt.mpr h))]

/-- C1 witness: a same-speaker pair with gap 0.3 (strictly below the
tolerance) merges into a single segment. -/
theorem C1_witness :
    merge_consecutive_segments [("A", 0, 1, "x"), ("A", 13/10, 2, "y")] =
      [("A", 0, 2, "x y")] :=
  (C1_merge_gap_boundary "A" 0 1 (13/10) 2 "x" "y").1 (by norm_num [abs_lt])

/-- C2 counterexample: an aligner constructed with `overlap_threshold = 2`
(outside `[0,1]`) is not rejected: construction succeeds and `align` can be
called on it, returning a normal (degraded) result instead of failing. -/
theorem C2_counterexample :
    (SpeakerAligner.mk 2 1).align "t" [⟨some [some 0, some 5], "hello"⟩]
      (some [⟨0, 9, "A"⟩]) = .ok [] := by
  simp +decide [SpeakerAligner.align, SpeakerAligner.assign_speakers, assignLoop,
    SpeakerAligner.find_dominant_speaker, speakerDurations, addDuration, maxBySnd,
    get_last_segment_time, resolveEnd, pyStrip]
  norm_num [min_def]
  rfl

/-- C2 amended: the constructor performs no validation: it stores any
`overlap_threshold` (including values outside `[0,1]`) unchanged, and
`align` remains callable on the resulting aligner — with a threshold
above 1 every fully-covered chunk is merely dropped (output degrades), the
call never fails. -/
theorem C2_no_construction_validation (thr dur : ℚ) (h : 1 < thr) :
    (SpeakerAligner.mk thr dur).overlap_threshold = thr ∧
    (SpeakerAligner.mk thr dur).min_segment_duration = dur ∧
    (SpeakerAligner.mk thr dur).align "t" [⟨some [some 0, some 5], "hello"⟩]
      (some [⟨0, 9, "A"⟩]) = .ok [] := by
  refine ⟨rfl, rfl, ?_⟩
  simp +decide [SpeakerAligner.align, SpeakerAligner.assign_speakers, assignLoop,
    SpeakerAligner.find_dominant_speaker, speakerDurations, addDuration, maxBySnd,
    get_last_segment_time, resolveEnd, pyStrip]
  norm_num [min_def]
  rw [if_neg (not_le.mpr h)]
  rfl

/-- C2 witness: the out-of-range threshold 3 is accepted by construction
and `align` still returns a result. -/
theorem C2_witness :
    (SpeakerAligner.mk 3 1).overlap_threshold = 3 ∧
    (SpeakerAligner.mk 3 1).min_segment_duration = 1 ∧
    (SpeakerAligner.mk 3 1).align "t" [⟨some [some 0, some 5], "hello"⟩]
      (some [⟨0, 9, "A"⟩]) = .ok [] :=
  C2_no_construction_validation 3 1 (by norm_num)

/-- C3: a chunk whose timestamp list has fewer than two values is indeed
skipped (first conjunct), but a chunk whose `timestamp` key is absent is
NOT skipped: `len(chunk.get('timestamp'))` raises `TypeError` and the
whole `align` call fails (second conjunct), contradicting the claim that
align never raises for data-shape anomalies. -/
theorem C3_malformed_chunk_behaviour :
    (SpeakerAligner.mk (1/2) 1).align "t" [⟨some [some 3], "hi"⟩]
      (some [⟨0, 1, "A"⟩]) = .ok [] ∧
    (SpeakerAligner.mk (1/2) 1).align "t" [⟨none, "hi"⟩]
      (some [⟨0, 1, "A"⟩]) =
      .error "TypeError: object of type NoneType has no len()" := by
  constructor <;> rfl

/-- Helper for C6: with a non-positive span no turn has a positive
intersection with the chunk, so the duration accumulator stays empty. -/
lemma speakerDurations_nonpos (s e : ℚ) (h : e ≤ s) (turns : List Turn) :
    speakerDurations s e turns = [] := by
  induction turns with
  | nil => rfl
  | cons t ts ih =>
    have hcond : ¬ (max s t.start < min e t.«end») :=
      not_lt.mpr ((min_le_left _ _).trans (h.trans (le_max_left _ _)))
    simp only [speakerDurations, List.foldl_cons] at ih ⊢
    rw [if_neg hcond]
    exact ih

/-- C6: for a chunk whose duration `end - start` is non-positive, the
speaker-duration accumulation is empty, so `_find_dominant_speaker`
returns `None` on the empty-accumulation path (line 128) before the
division `dominant[1] / segment_duration` is ever reached — no division
by a non-positive duration happens. -/
theorem C6_nonpositive_duration (a : SpeakerAligner) (s e : ℚ) (turns : List Turn)
    (h : e - s ≤ 0) :
    speakerDurations s e turns = [] ∧
    a.find_dominant_speaker s e turns = none := by
  have hsd := speakerDurations_nonpos s e (by linarith) turns
  refine ⟨hsd, ?_⟩
  simp [SpeakerAligner.find_dominant_speaker, hsd, maxBySnd]

/-- C6 witness: a zero-duration chunk `[5, 5]` against turn `(0,9,"A")`
accumulates nothing and is rejected. -/
theorem C6_witness :
    speakerDurations 5 5 [⟨0, 9, "A"⟩] = [] ∧
    (SpeakerAligner.mk (1/2) 1).find_dominant_speaker 5 5 [⟨0, 9, "A"⟩] = none :=
  C6_nonpositive_duration (SpeakerAligner.mk (1/2) 1) 5 5 [⟨0, 9, "A"⟩] (by norm_num)

/-- Helper for C9: the running maximum in `_get_last_segment_time` never
decreases below its accumulator. -/
lemma le_lastTime_foldl (l : List Turn) (acc : ℚ) :
    acc ≤ l.foldl (fun last_time t => if last_time < t.«end» then t.«end» else last_time) acc := by
  induction l generalizing acc with
  | nil => exact le_refl _
  | cons t ts ih =>
    refine le_trans ?_ (ih _)
    dsimp only
    split
    · exact le_of_lt (by assumption)
    · exact le_refl _

/-- Helper for C9: every turn end is bounded by the running maximum. -/
lemma mem_le_lastTime_foldl (l : List Turn) (acc : ℚ) (t : Turn) (ht : t ∈ l) :
    t.«end» ≤ l.foldl (fun last_time u => if last_time < u.«end» then u.«end» else last_time) acc := by
  induction l generalizing acc with
  | nil => cases ht
  | cons u us ih =>
    rcases List.mem_cons.mp ht with rfl | hmem
    · refine le_trans ?_ (le_lastTime_foldl us _)
      dsimp only
      split
      · exact le_refl _
      · exact le_of_not_lt (by assumption)
    · exact ih _ hmem

/-- Helper for C9: the running maximum is bounded by any upper bound of
the accumulator and all turn ends. -/
lemma lastTime_foldl_le (l : List Turn) (acc E : ℚ) (hacc : acc ≤ E)
    (hl : ∀ t ∈ l, t.«end» ≤ E) :
    l.foldl (fun last_time t => if last_time < t.«end» then t.«end» else last_time) acc ≤ E := by
  induction l generalizing acc with
  | nil => exact hacc
  | cons t ts ih =>
    refine ih _ ?_ (fun u hu => hl u (List.mem_cons_of_mem _ hu))
    dsimp only
    split
    · exact hl t (List.mem_cons_self _ _)
    · exact hacc

/-- C9: a chunk with an absent (`null`) end timestamp resolves its end to
`_get_last_segment_time`, which equals the maximum end time over the
diarization turns (for any non-empty turn set attaining a non-negative
maximum `E`), and over an empty turn set that last-end value is `0.0`;
concretely, chunk `ts:[10, null]` with a turn ending at 20 is attributed
with resolved end 20. -/
theorem C9_null_end_resolution (turns : List Turn) (E : ℚ) (hE : 0 ≤ E)
    (hmem : ∃ t ∈ turns, t.«end» = E) (hub : ∀ t ∈ turns, t.«end» ≤ E) :
    resolveEnd none (get_last_segment_time turns) = get_last_segment_time turns ∧
    get_last_segment_time turns = E ∧
    get_last_segment_time ([] : List Turn) = 0 ∧
    (SpeakerAligner.mk (1/2) 1).assign_speakers [⟨some [some 10, none], "hi"⟩]
      [⟨0, 20, "A"⟩] = .ok [("A", 10, 20, "hi")] := by
  obtain ⟨t, ht, hte⟩ := hmem
  refine ⟨rfl, le_antisymm (lastTime_foldl_le _ _ _ hE hub) ?_, rfl, ?_⟩
  · exact hte ▸ mem_le_lastTime_foldl turns 0 t ht
  · simp +decide [SpeakerAligner.assign_speakers, assignLoop,
      SpeakerAligner.find_dominant_speaker, speakerDurations, addDuration, maxBySnd,
      get_last_segment_time, resolveEnd, pyStrip]
    norm_num [min_def, max_def]
    decide

/-- C9 witness: the single turn `(10,20,"A")` attains maximum end 20. -/
theorem C9_witness :
    resolveEnd none (get_last_segment_time [⟨10, 20, "A"⟩]) =
      get_last_segment_time [⟨10, 20, "A"⟩] ∧
    get_last_segment_time [⟨10, 20, "A"⟩] = 20 ∧
    get_last_segment_time ([] : List Turn) = 0 ∧
    (SpeakerAligner.mk (1/2) 1).assign_speakers [⟨some [some 10, none], "hi"⟩]
      [⟨0, 20, "A"⟩] = .ok [("A", 10, 20, "hi")] :=
  C9_null_end_resolution [⟨10, 20, "A"⟩] 20 (by norm_num)
    ⟨⟨10, 20, "A"⟩, List.mem_singleton_self _, rfl⟩
    (by intro t htm; rw [List.mem_singleton] at htm; subst htm; norm_num)

/-- Helper for C5: Python's first-maximal fold stays within the candidate
list (plus the seed). -/
lemma foldl_max_mem (l : List (String × ℚ)) (p : String × ℚ) :
    l.foldl (fun best q => if best.2 < q.2 then q else best) p ∈ p :: l := by
  induction l generalizing p with
  | nil => exact List.mem_singleton_self _
  | cons q l ih =>
    rw [List.foldl_cons]
    rcases List.mem_cons.mp (ih (if p.2 < q.2 then q else p)) with h1 | h1
    · rw [h1]
      split
      · exact List.mem_cons_of_mem _ (List.mem_cons_self _ _)
      · exact List.mem_cons_self _ _
    · exact List.mem_cons_of_mem _ (List.mem_cons_of_mem _ h1)

/-- Helper for C5: the dominant entry returned by `max(..., key=...)` is
one of the accumulated `(speaker, duration)` pairs. -/
lemma maxBySnd_mem (l : List (String × ℚ)) (p : String × ℚ)
    (h : maxBySnd l = some p) : p ∈ l := by
  cases l with
  | nil => simp [maxBySnd] at h
  | cons q rest =>
    rw [maxBySnd, Option.some.injEq] at h
    exact h ▸ foldl_max_mem rest q

/-- C5: the threshold comparison is `>=`, not `>`: when the winning
speaker's accumulated overlap divided by the chunk duration is exactly
`overlap_threshold` the attribution is accepted; and when every
accumulated ratio is strictly below the threshold the chunk is attributed
to no one (`None`) and dropped from the assignment output. -/
theorem C5_threshold_boundary (a : SpeakerAligner) (s e : ℚ) (turns : List Turn)
    (w : String × ℚ) (txt : String) :
    (maxBySnd (speakerDurations s e turns) = some w →
      w.2 / (e - s) = a.overlap_threshold →
      a.find_dominant_speaker s e turns = some w.1) ∧
    ((∀ p ∈ speakerDurations s e turns, p.2 / (e - s) < a.overlap_threshold) →
      a.find_dominant_speaker s e turns = none ∧
      a.assign_speakers [⟨some [some s, some e], txt⟩] turns = .ok []) := by
  constructor
  · intro hmax hrate
    simp only [SpeakerAligner.find_dominant_speaker, hmax]
    rw [if_pos (le_of_eq hrate.symm)]
  · intro hlt
    have hnone : a.find_dominant_speaker s e turns = none := by
      cases hmax : maxBySnd (speakerDurations s e turns) with
      | none => simp [SpeakerAligner.find_dominant_speaker, hmax]
      | some dom =>
        simp only [SpeakerAligner.find_dominant_speaker, hmax]
        rw [if_neg (not_le.mpr (hlt dom (maxBySnd_mem _ _ hmax)))]
    refine ⟨hnone, ?_⟩
    by_cases hstrip : pyStrip txt = ""
    · simp [SpeakerAligner.assign_speakers, assignLoop, hstrip]
    · simp [SpeakerAligner.assign_speakers, assignLoop, hstrip, resolveEnd, hnone]

/-- C5 witness: chunk `[0,4]` against turn `(0,2,"A")` gives ratio
`2/4 = 0.5`, exactly the default threshold, and is accepted. -/
theorem C5_witness :
    (SpeakerAligner.mk (1/2) 1).find_dominant_speaker 0 4 [⟨0, 2, "A"⟩] = some "A" :=
  (C5_threshold_boundary (SpeakerAligner.mk (1/2) 1) 0 4 [⟨0, 2, "A"⟩] ("A", 2) "hi").1
    (by simp [speakerDurations, addDuration, maxBySnd]; norm_num [min_def, max_def])
    (by norm_num)

/-- Helper for C7: over an empty turn list every well-shaped chunk fails
attribution (no accumulated durations) and is dropped. -/
lemma assignLoop_no_turns (a : SpeakerAligner) (last_e : ℚ) (chunks : List Chunk)
    (hwf : ∀ c ∈ chunks, ∃ s t rest, c.timestamp = some (some s :: t :: rest)) :
    assignLoop a last_e [] chunks = .ok [] := by
  induction chunks with
  | nil => rfl
  | cons c cs ih =>
    obtain ⟨s, t, rest, hts⟩ := hwf c (List.mem_cons_self _ _)
    have ih' := ih (fun d hd => hwf d (List.mem_cons_of_mem _ hd))
    by_cases hstrip : pyStrip c.text = ""
    · simp [assignLoop, hts, hstrip, ih']
    · simp [assignLoop, hts, hstrip, ih', SpeakerAligner.find_dominant_speaker,
        speakerDurations, maxBySnd]

/-- C7: `align` returns `[]` when the chunk list is empty, when the
diarization input is absent (`None`), and when the diarization turn list
is empty (the chunks here have the shape of the spec's data model:
a present timestamp list with at least a start and one further value). -/
theorem C7_empty_inputs (a : SpeakerAligner) (tr : String) (turns : List Turn)
    (chunks : List Chunk)
    (hwf : ∀ c ∈ chunks, ∃ s t rest, c.timestamp = some (some s :: t :: rest)) :
    a.align tr [] (some turns) = .ok [] ∧
    a.align tr chunks none = .ok [] ∧
    a.align tr chunks (some []) = .ok [] := by
  refine ⟨by simp [SpeakerAligner.align], rfl, ?_⟩
  cases chunks with
  | nil => simp [SpeakerAligner.align]
  | cons c cs =>
    have h := assignLoop_no_turns a (get_last_segment_time []) (c :: cs) hwf
    simp [SpeakerAligner.align, SpeakerAligner.assign_speakers, h,
      merge_consecutive_segments]

/-- C7 witness: concrete empty-input calls all return `[]`. -/
theorem C7_witness :
    (SpeakerAligner.mk (1/2) 1).align "t" [] (some [⟨0, 9, "A"⟩]) = .ok [] ∧
    (SpeakerAligner.mk (1/2) 1).align "t" [⟨some [some 0, some 5], "hi"⟩] none = .ok [] ∧
    (SpeakerAligner.mk (1/2) 1).align "t" [⟨some [some 0, some 5], "hi"⟩] (some []) = .ok [] :=
  C7_empty_inputs (SpeakerAligner.mk (1/2) 1) "t" [⟨0, 9, "A"⟩]
    [⟨some [some 0, some 5], "hi"⟩]
    (by
      intro c hc
      rw [List.mem_singleton] at hc
      subst hc
      exact ⟨0, some 5, [], rfl⟩)

/-- Helper for C10: `_find_dominant_speaker` reads only
`overlap_threshold` from the configuration. -/
lemma find_dominant_speaker_thr (thr d1 d2 s e : ℚ) (turns : List Turn) :
    (SpeakerAligner.mk thr d1).find_dominant_speaker s e turns =
    (SpeakerAligner.mk thr d2).find_dominant_speaker s e turns := rfl

/-- Helper for C10: the assignment loop is unchanged under any change of
`min_segment_duration`. -/
lemma assignLoop_thr (thr d1 d2 last_e : ℚ) (turns : List Turn) (chunks : List Chunk) :
    assignLoop (SpeakerAligner.mk thr d1) last_e turns chunks =
    assignLoop (SpeakerAligner.mk thr d2) last_e turns chunks := by
  induction chunks with
  | nil => rfl
  | cons c cs ih =>
    unfold assignLoop
    rw [ih]
    simp only [find_dominant_speaker_thr thr d1 d2]

/-- C10: `min_segment_duration` has no effect on the output: aligners
constructed with the same `overlap_threshold` but arbitrary different
`min_segment_duration` values produce identical `align` results on every
input — the stored field is never read by any alignment operation. -/
theorem C10_min_segment_duration_irrelevant (thr d1 d2 : ℚ) (tr : String)
    (ts : List Chunk) (di : Option (List Turn)) :
    (SpeakerAligner.mk thr d1).align tr ts di =
    (SpeakerAligner.mk thr d2).align tr ts di := by
  cases di with
  | none => rfl
  | some turns =>
    simp only [SpeakerAligner.align, SpeakerAligner.assign_speakers]
    rw [assignLoop_thr thr d1 d2]

/-- Helper for C4: in a positive, end-before-next-start chain, the first
segment ends no later than every later segment starts. -/
lemma chain_gap_all (a : Seg) (l : List Seg) (hpos : ∀ s ∈ l, posSeg s)
    (hchain : List.Chain' gapLE (a :: l)) : ∀ b ∈ l, a.2.2.1 ≤ b.2.1 := by
  induction l generalizing a with
  | nil => intro b hb; cases hb
  | cons c t ih =>
    intro b hb
    have hac : gapLE a c := (List.chain'_cons.mp hchain).1
    rcases List.mem_cons.mp hb with rfl | hbt
    · exact hac
    · have hct := ih c (fun s hs => hpos s (List.mem_cons_of_mem _ hs))
        (List.chain'_cons.mp hchain).2 b hbt
      have hpc : posSeg c := hpos c (List.mem_cons_self _ _)
      exact le_trans hac (le_trans (le_of_lt hpc) hct)

/-- Helper for C4: a consecutive end-before-start chain of positive
segments is pairwise strictly ordered by start and non-overlapping. -/
lemma chainPos_pairwise (l : List Seg) (hpos : ∀ s ∈ l, posSeg s)
    (hchain : List.Chain' gapLE l) : pairwiseOrdered l := by
  induction l with
  | nil => exact List.Pairwise.nil
  | cons a t ih =>
    rw [pairwiseOrdered, List.pairwise_cons]
    constructor
    · intro b hb
      have hgap := chain_gap_all a t (fun s hs => hpos s (List.mem_cons_of_mem _ hs))
        hchain b hb
      exact ⟨lt_of_lt_of_le (hpos a (List.mem_cons_self _ _)) hgap, hgap⟩
    · exact ih (fun s hs => hpos s (List.mem_cons_of_mem _ hs)) hchain.tail

/-- Helper for C4: the merge accumulator loop preserves positivity and the
end-before-next-start chain, and its first output keeps the accumulator's
start time. -/
lemma mergeLoop_spec (l : List Seg) : ∀ cur : Seg, posSeg cur →
    (∀ s ∈ l, posSeg s) → List.Chain' gapLE (cur :: l) →
    ∃ hd tl, mergeLoop cur l = hd :: tl ∧ hd.2.1 = cur.2.1 ∧
      (∀ s ∈ hd :: tl, posSeg s) ∧ List.Chain' gapLE (hd :: tl) := by
  induction l with
  | nil =>
    intro cur hcur _ _
    refine ⟨cur, [], rfl, rfl, ?_, List.chain'_singleton _⟩
    intro s hs
    rw [List.mem_singleton] at hs
    exact hs ▸ hcur
  | cons seg rest ih =>
    intro cur hcur hpos hchain
    have hgap : gapLE cur seg := (List.chain'_cons.mp hchain).1
    have hchain2 : List.Chain' gapLE (seg :: rest) := (List.chain'_cons.mp hchain).2
    have hpseg : posSeg seg := hpos seg (List.mem_cons_self _ _)
    have hposr : ∀ s ∈ rest, posSeg s := fun s hs => hpos s (List.mem_cons_of_mem _ hs)
    by_cases hc : seg.1 = cur.1 ∧ |seg.2.1 - cur.2.2.1| < 1/2
    · simp only [mergeLoop]
      rw [if_pos hc]
      have hposnew : posSeg
          (cur.1, cur.2.1, seg.2.2.1, cur.2.2.2 ++ " " ++ seg.2.2.2) :=
        lt_of_lt_of_le hcur (le_trans hgap (le_of_lt hpseg))
      have hchainnew : List.Chain' gapLE
          ((cur.1, cur.2.1, seg.2.2.1, cur.2.2.2 ++ " " ++ seg.2.2.2) :: rest) :=
        List.chain'_cons'.mpr
          ⟨fun h hh => (List.chain'_cons'.mp hchain2).1 h hh,
           (List.chain'_cons'.mp hchain2).2⟩
      obtain ⟨hd, tl, heq, hstart, hposall, hchainout⟩ :=
        ih _ hposnew hposr hchainnew
      exact ⟨hd, tl, heq, hstart, hposall, hchainout⟩
    · simp only [mergeLoop]
      rw [if_neg hc]
      obtain ⟨hd, tl, heq, hstart, hposall, hchainout⟩ := ih seg hpseg hposr hchain2
      refine ⟨cur, hd :: tl, ?_, rfl, ?_, ?_⟩
      · rw [heq]
      · intro s hs
        rcases List.mem_cons.mp hs with rfl | hs2
        · exact hcur
        · exact hposall s hs2
      · rw [List.chain'_cons]
        refine ⟨?_, hchainout⟩
        show cur.2.2.1 ≤ hd.2.1
        rw [hstart]
        exact hgap

/-- C4 amended: when the attributed segments fed to
`_merge_consecutive_segments` are positive-duration and ordered so that
each segment ends no later than the next starts, the merged output is
strictly ordered by start time and no two output segments overlap. -/
theorem C4_merge_order (l : List Seg) (hpos : ∀ s ∈ l, posSeg s)
    (hchain : List.Chain' gapLE l) :
    pairwiseOrdered (merge_consecutive_segments l) := by
  cases l with
  | nil => exact List.Pairwise.nil
  | cons s rest =>
    obtain ⟨hd, tl, heq, _, hposall, hchainout⟩ :=
      mergeLoop_spec rest s (hpos s (List.mem_cons_self _ _))
        (fun u hu => hpos u (List.mem_cons_of_mem _ hu)) hchain
    rw [merge_consecutive_segments, heq]
    exact chainPos_pairwise _ hposall hchainout

/-- C4 witness: an ordered two-speaker input merges to an ordered,
non-overlapping output. -/
theorem C4_witness :
    pairwiseOrdered (merge_consecutive_segments [("A", 0, 1, "x"), ("B", 2, 3, "y")]) :=
  C4_merge_order [("A", 0, 1, "x"), ("B", 2, 3, "y")]
    (by
      intro s hs
      rcases List.mem_cons.mp hs with rfl | hs2
      · norm_num [posSeg]
      · rw [List.mem_singleton] at hs2
        subst hs2
        norm_num [posSeg])
    (List.chain'_pair.mpr (by norm_num [gapLE]))

/-- C4 counterexample: `align` applied to chunks that are not in
chronological order returns segments that are neither ordered by start nor
non-overlapping — the unordered chunk list `[(5,9), (0,5)]` under one turn
yields output starting at 5 followed by output starting at 0. -/
theorem C4_counterexample :
    (SpeakerAligner.mk (1/2) 1).align "t"
      [⟨some [some 5, some 9], "b"⟩, ⟨some [some 0, some 5], "a"⟩]
      (some [⟨0, 9, "A"⟩]) = .ok [("A", 5, 9, "b"), ("A", 0, 5, "a")] ∧
    ¬ pairwiseOrdered [("A", 5, 9, "b"), ("A", 0, 5, "a")] := by
  constructor
  · simp +decide [SpeakerAligner.align, SpeakerAligner.assign_speakers, assignLoop,
      SpeakerAligner.find_dominant_speaker, speakerDurations, addDuration, maxBySnd,
      get_last_segment_time, resolveEnd, pyStrip]
    norm_num [min_def, max_def]
    simp +decide [merge_consecutive_segments, mergeLoop]
    norm_num [le_abs]
  · intro h
    have h2 := (List.pairwise_cons.mp h).1 _ (List.mem_cons_self _ _)
    norm_num at h2
